import Mathlib

/-!
Shallow embedding of `Assets/Scripts/Student/robot.py`: the per-agent
decision function `decide_action` (task claiming, movement/action
selection, obstacle/peer avoidance) and the batch wrapper `decide_all`.

Modelling conventions:
* Python floats are modelled by exact rationals (`ℚ`) for every quantity
  that only feeds comparisons, and by `ℝ` for the avoidance offsets,
  which genuinely need a square root.
* `math.hypot dx dz < t` (with `t ≥ 0`) is encoded as the equivalent
  squared comparison `dx^2 + dz^2 < t^2`, avoiding the square root.
* A Python dict is modelled as an association list; iteration order is
  the list order (Python dicts iterate in insertion order).
* The loosely typed perception payload is modelled by a typed record;
  a payload on which the Python code would raise is modelled at the
  batch boundary by an absent (`Option.none`) perception.
-/

/-- A visible task/item: `{id, x, z}`. -/
structure Item where
  id : String
  x : ℚ
  z : ℚ
deriving DecidableEq, Repr

/-- A delivery zone `{x, z}` (`deposites` in the payload). -/
structure Deposit where
  x : ℚ
  z : ℚ
deriving DecidableEq, Repr

/-- An obstacle `{x, z}`. -/
structure Obstacle where
  x : ℚ
  z : ℚ
deriving DecidableEq, Repr

/-- The publicly visible state of another agent in the snapshot:
position, carrying flag, current target id. -/
structure AgentData where
  x : ℚ
  z : ℚ
  is_carrying : Bool
  current_target_id : String
deriving DecidableEq, Repr

/-- The per-agent perception payload read at the top of `decide_action`
(lines 34-53 of `robot.py`). -/
structure Perception where
  my_id : String
  my_x : ℚ
  my_z : ℚ
  spawn_x : ℚ
  spawn_z : ℚ
  is_carrying : Bool
  items : List Item
  deposites : List Deposit
  all_agents : List (String × AgentData)
  obstacles : List Obstacle
  current_target_id : String
deriving DecidableEq, Repr

/-- Squared Euclidean distance between `(x1, z1)` and `(x2, z2)`. -/
def distSq (x1 z1 x2 z2 : ℚ) : ℚ :=
  (x1 - x2) ^ 2 + (z1 - z2) ^ 2

/-- `math.isclose a b rel_tol=0.01` with the default `abs_tol = 0`:
`|a - b| ≤ 0.01 * max |a| |b|`. -/
def isclose (a b : ℚ) : Prop :=
  |a - b| ≤ 1 / 100 * max |a| |b|

instance (a b : ℚ) : Decidable (isclose a b) := by
  unfold isclose; infer_instance

/-- `near_item` (robot.py lines 9-13): is some item strictly within
`threshold` of the robot?  `hypot < threshold` is encoded squared. -/
def near_item (robot_x robot_z : ℚ) (items : List Item)
    (threshold : ℚ := 1) : Bool :=
  items.any fun item =>
    decide (distSq item.x item.z robot_x robot_z < threshold ^ 2)

/-- Python `str.replace("Robot_", "")`: remove every non-overlapping
occurrence of `Robot_`, scanning left to right. -/
def removeRobotToken : List Char → List Char
  | 'R' :: 'o' :: 'b' :: 'o' :: 't' :: '_' :: rest => removeRobotToken rest
  | c :: rest => c :: removeRobotToken rest
  | [] => []

/-- Accumulate decimal digits; `none` on any non-digit character. -/
def digitsToNat (acc : Nat) : List Char → Option Nat
  | [] => some acc
  | c :: cs =>
    if c.isDigit then digitsToNat (acc * 10 + (c.toNat - 48)) cs else none

/-- Python `int(...)` on a trimmed token: an optional minus sign
followed by at least one decimal digit; `none` models `ValueError`. -/
def parseInt : List Char → Option Int
  | [] => none
  | '-' :: cs =>
    if cs.isEmpty then none
    else (digitsToNat 0 cs).map fun n => -(n : Int)
  | cs => (digitsToNat 0 cs).map fun n => (n : Int)

/-- `get_id_int` (robot.py lines 18-23): strip every occurrence of
`"Robot_"` and parse the rest as an integer; any parse failure yields
the sentinel `999999`. -/
def get_id_int (robot_id_str : String) : ℤ :=
  (parseInt (removeRobotToken robot_id_str.toList)).getD 999999

/-- The reservation set (robot.py lines 90-95): target ids of the other
agents whose `current_target_id` is not `"0"`. -/
def reservedSet (p : Perception) : List String :=
  (p.all_agents.filter fun e =>
      decide (e.1 ≠ p.my_id) && decide (e.2.current_target_id ≠ "0")).map
    fun e => e.2.current_target_id

/-- The eligible peers scanned by the tournament (robot.py lines 82-88):
other agents with no current target and not carrying. -/
def availablePeers (p : Perception) : List (String × AgentData) :=
  p.all_agents.filter fun e =>
    decide (e.1 ≠ p.my_id) && decide (e.2.current_target_id = "0")
      && !e.2.is_carrying

/-- The candidate items (robot.py lines 98-101): visible items whose id
is not reserved by another agent. -/
def availableItems (p : Perception) : List Item :=
  p.items.filter fun item => decide (item.id ∉ reservedSet p)

/-- Candidate items sorted ascending by squared distance to self
(robot.py lines 103-105).  Python `list.sort` is a stable ascending
sort; `insertionSort` with `≤` on the key is also stable ascending. -/
def sortedAvailable (p : Perception) : List Item :=
  (availableItems p).insertionSort fun i1 i2 =>
    distSq i1.x i1.z p.my_x p.my_z ≤ distSq i2.x i2.z p.my_x p.my_z

/-- One step of the inner peer scan (robot.py lines 113-136): the peer
replaces the running closest when it is strictly closer, or equally
close within tolerance with a lexicographically smaller id string. -/
def tstep (ix iz : ℚ) (acc : String × ℚ) (peer : String × AgentData) :
    String × ℚ :=
  let od := distSq ix iz peer.2.x peer.2.z
  if od < acc.2 ∨ (isclose od acc.2 ∧ peer.1 < acc.1) then (peer.1, od)
  else acc

/-- The outer tournament loop (robot.py lines 107-147): scan candidates
nearest-first; claim the first one for which self survives the peer
scan; otherwise drop the winning peer from the pool and continue. -/
def tournament (robotId : String) (rx rz : ℚ) :
    List Item → List (String × AgentData) → Option Item
  | [], _ => none
  | item :: rest, peers =>
    let myD := distSq item.x item.z rx rz
    let c := peers.foldl (tstep item.x item.z) (robotId, myD)
    if c.1 = robotId then some item
    else tournament robotId rx rz rest (peers.filter fun e => e.1 ≠ c.1)

/-- Dict lookup `visible_items_by_id[tid]` (robot.py line 44): the dict
comprehension keeps the LAST item with a given id, so we search the
reversed list. -/
def lookupItem (items : List Item) (tid : String) : Option Item :=
  items.reverse.find? fun item => item.id = tid

/-- The tournament branch of target selection (robot.py lines 81-147):
winner's id and position, else `"0"` and the spawn position. -/
def tournamentResolve (p : Perception) : String × ℚ × ℚ :=
  match tournament p.my_id p.my_x p.my_z (sortedAvailable p)
      (availablePeers p) with
  | some item => (item.id, item.x, item.z)
  | none => ("0", p.spawn_x, p.spawn_z)

/-- First delivery zone minimizing squared distance to self
(robot.py lines 63-66): Python `min` keeps the first minimum. -/
def closestDeposit (rx rz : ℚ) (d : Deposit) (ds : List Deposit) :
    Deposit :=
  ds.foldl
    (fun best d2 =>
      if distSq d2.x d2.z rx rz < distSq best.x best.z rx rz then d2
      else best)
    d

/-- Target resolution (robot.py lines 55-147): returns
`(target_id, target_pos_x, target_pos_z)`.

The Python control flow is `if carrying and deposites: A
elif not carrying: B` with defaults `("0", spawn)`; carrying with no
deposites falls through to the defaults, which the nested `ite` below
reproduces.  The seeking branch keeps the still-visible previous target
(robot.py lines 74-79) and otherwise runs the tournament. -/
def resolveTarget (p : Perception) : String × ℚ × ℚ :=
  if p.is_carrying then
    match p.deposites with
    | [] => ("0", p.spawn_x, p.spawn_z)
    | d :: ds =>
      let best := closestDeposit p.my_x p.my_z d ds
      ("0", best.x, best.z)
  else
    if p.current_target_id ≠ "0" then
      match lookupItem p.items p.current_target_id with
      | some item => (p.current_target_id, item.x, item.z)
      | none => tournamentResolve p
    else tournamentResolve p

/-- Movement/action selection (robot.py lines 152-168): two sequential
guarded assignments over the defaults `("walk", "none")`.  The drop-off
test `hypot < 0.6` is encoded squared as `< 9/25`. -/
def movementAction (p : Perception) (tid : String) (tx tz : ℚ) :
    String × String :=
  let first :=
    if ¬p.is_carrying ∧ tid ≠ "0" ∧ near_item p.my_x p.my_z p.items then
      ("stop", "pick_up")
    else ("walk", "none")
  if p.is_carrying ∧ distSq tx tz p.my_x p.my_z < 9 / 25 then
    ("stop", "drop_off")
  else first

/-- Repulsion from one obstacle (robot.py lines 175-183), over `ℝ`:
skipped unless `0 < d < 1.5`. -/
noncomputable def obstacleTerm (rx rz ox oz : ℝ) : ℝ × ℝ :=
  let dx := rx - ox
  let dz := rz - oz
  let d := Real.sqrt (dx ^ 2 + dz ^ 2)
  if 0 < d ∧ d < 1.5 then
    (dx / d * ((1.5 - d) / 1.5) * 1.5, dz / d * ((1.5 - d) / 1.5) * 1.5)
  else (0, 0)

/-- Repulsion from one other agent (robot.py lines 195-205), over `ℝ`:
skipped unless `0 < d < 0.5`. -/
noncomputable def agentTerm (rx rz ox oz : ℝ) : ℝ × ℝ :=
  let dx := rx - ox
  let dz := rz - oz
  let d := Real.sqrt (dx ^ 2 + dz ^ 2)
  if 0 < d ∧ d < 0.5 then
    (dx / d * ((0.5 - d) / 1) * 2, dz / d * ((0.5 - d) / 1) * 2)
  else (0, 0)

/-- Total avoidance offset (robot.py lines 173-205): sum of obstacle
terms plus sum of peer terms over the other agents (self skipped). -/
noncomputable def avoidance (p : Perception) : ℝ × ℝ :=
  (p.obstacles.map fun o =>
      obstacleTerm (p.my_x : ℝ) (p.my_z : ℝ) (o.x : ℝ) (o.z : ℝ)).sum +
  ((p.all_agents.filter fun e => e.1 ≠ p.my_id).map fun e =>
      agentTerm (p.my_x : ℝ) (p.my_z : ℝ) (e.2.x : ℝ) (e.2.z : ℝ)).sum

/-- The movement part of a decision. -/
structure Movement where
  type : String
  target_x : ℝ
  target_z : ℝ

/-- The action part of a decision. -/
structure AgentAction where
  type : String
  target_id : String

/-- The decision record returned per agent (robot.py lines 207-217). -/
structure Decision where
  movement : Movement
  action : AgentAction

/-- `decide_action` (robot.py lines 29-217): resolve a target, derive
movement/action, add the avoidance offset to the target position. -/
noncomputable def decide_action (p : Perception) : Decision :=
  let r := resolveTarget p
  let ma := movementAction p r.1 r.2.1 r.2.2
  let av := avoidance p
  { movement :=
      { type := ma.1
        target_x := (r.2.1 : ℝ) + av.1
        target_z := (r.2.2 : ℝ) + av.2 }
    action := { type := ma.2, target_id := r.1 } }

/-- The safe decision substituted on a per-agent failure
(robot.py lines 233-236). -/
noncomputable def safeDecision : Decision :=
  { movement := { type := "stop", target_x := 0, target_z := 0 }
    action := { type := "none", target_id := "0" } }

/-- A per-agent payload as seen by the batch wrapper; `none` models a
payload on which `decide_action` raises. -/
noncomputable def decideActionE : Option Perception → Except String Decision
  | none => Except.error "exception"
  | some p => Except.ok (decide_action p)

/-- One iteration of the batch loop (robot.py lines 228-236): the
agent's own decision, or the safe decision if it raised. -/
noncomputable def decideOne (e : String × Option Perception) :
    String × Decision :=
  (e.1,
    match decideActionE e.2 with
    | Except.ok d => d
    | Except.error _ => safeDecision)

/-- `decide_all` (robot.py lines 223-237): one decision per input id. -/
noncomputable def decide_all (ps : List (String × Option Perception)) :
    List (String × Decision) :=
  ps.map decideOne

/-- The full per-agent state recorded in a snapshot. -/
structure Agent where
  id : String
  x : ℚ
  z : ℚ
  spawn_x : ℚ
  spawn_z : ℚ
  carrying : Bool
  current_target_id : String
deriving DecidableEq, Repr

/-- A fixed, consistent snapshot shared by every agent in one pass:
one agent list, one item list, one zone list, one obstacle list. -/
structure Snapshot where
  agents : List Agent
  items : List Item
  deposites : List Deposit
  obstacles : List Obstacle

/-- The perception agent `a` receives from snapshot `s`: its own
private fields plus the shared lists, with every agent's public entry
in `all_agents` (the code itself skips the self entry). -/
def perceptionOf (s : Snapshot) (a : Agent) : Perception :=
  { my_id := a.id
    my_x := a.x
    my_z := a.z
    spawn_x := a.spawn_x
    spawn_z := a.spawn_z
    is_carrying := a.carrying
    items := s.items
    deposites := s.deposites
    all_agents := s.agents.map fun b =>
      (b.id, ⟨b.x, b.z, b.carrying, b.current_target_id⟩)
    obstacles := s.obstacles
    current_target_id := a.current_target_id }

/-! Concrete inputs used by the counterexamples and witnesses below. -/

/-- Agent `Robot_1` at the origin, no reservation. -/
def aDup : Agent := ⟨"Robot_1", 0, 0, 0, 0, false, "0"⟩

/-- Agent `Robot_2` at `(5, 0)`, no reservation. -/
def bDup : Agent := ⟨"Robot_2", 5, 0, 5, 0, false, "0"⟩

/-- Snapshot with two agents and two tasks at `(1,0)` and `(1.5,0)`:
`Robot_1` is closer to both tasks than `Robot_2`. -/
def sDup : Snapshot :=
  { agents := [aDup, bDup]
    items := [⟨"1", 1, 0⟩, ⟨"2", 3 / 2, 0⟩]
    deposites := []
    obstacles := [] }

/-- Spec scenario 1: one visible task at `(2, 0)`, no reservations. -/
def sOne : Snapshot :=
  { agents := [aDup, bDup]
    items := [⟨"1", 2, 0⟩]
    deposites := []
    obstacles := [] }

/-- A perception whose sticky previous target `"7"` is still visible
but is also reserved by the other agent `B`. -/
def pSticky : Perception :=
  { my_id := "A", my_x := 0, my_z := 0, spawn_x := 0, spawn_z := 0
    is_carrying := false
    items := [⟨"7", 3, 0⟩]
    deposites := []
    all_agents := [("B", ⟨1, 1, false, "7"⟩)]
    obstacles := []
    current_target_id := "7" }

/-- A perception with no previous target, one unreserved task `"5"`,
and one peer that reserved the invisible task `"9"`. -/
def pTournamentW : Perception :=
  { my_id := "A", my_x := 0, my_z := 0, spawn_x := 0, spawn_z := 0
    is_carrying := false
    items := [⟨"5", 1, 0⟩]
    deposites := []
    all_agents := [("B", ⟨7, 7, false, "9"⟩)]
    obstacles := []
    current_target_id := "0" }

/-- Agent `A1` of the tie-break scenario. -/
def aTie : Agent := ⟨"A1", 3, 0, 0, 0, false, "0"⟩

/-- Agent `B2` of the tie-break scenario. -/
def bTie : Agent := ⟨"B2", -3, 0, 0, 0, false, "0"⟩

/-- Tie-break scenario: `A1` at `(3,0)`, `B2` at `(-3,0)`, one task at
the origin, both at squared distance `9`. -/
def sTie : Snapshot :=
  { agents := [aTie, bTie]
    items := [⟨"1", 0, 0⟩]
    deposites := []
    obstacles := [] }

/-- Agent `A` at `(10, 0)`: squared distance `100` to the origin. -/
def aNearTie : Agent := ⟨"A", 10, 0, 0, 0, false, "0"⟩

/-- Agent `B` at `(9.95, 0)`: squared distance `99.0025` to the origin,
within the 1 percent relative tolerance of `100` but strictly closer. -/
def bNearTie : Agent := ⟨"B", 199 / 20, 0, 0, 0, false, "0"⟩

/-- Near-tie scenario: distances equal within tolerance but unequal,
and the strictly closer agent has the larger id. -/
def sNearTie : Snapshot :=
  { agents := [aNearTie, bNearTie]
    items := [⟨"1", 0, 0⟩]
    deposites := []
    obstacles := [] }

/-- Agent `Robot_5`: numeric id 5 under `get_id_int`. -/
def aIdOrder : Agent := ⟨"Robot_5", 3, 0, 0, 0, false, "0"⟩

/-- Agent `Apple`: malformed id, sentinel 999999 under `get_id_int`. -/
def bIdOrder : Agent := ⟨"Apple", -3, 0, 0, 0, false, "0"⟩

/-- Id-ordering scenario: `Robot_5` and `Apple` equidistant from one
task at the origin. -/
def sIdOrder : Snapshot :=
  { agents := [aIdOrder, bIdOrder]
    items := [⟨"1", 0, 0⟩]
    deposites := []
    obstacles := [] }

/-- Locked target `"1"` at distance 5, no other item nearby. -/
def pWalk : Perception :=
  { my_id := "A", my_x := 0, my_z := 0, spawn_x := 0, spawn_z := 0
    is_carrying := false
    items := [⟨"1", 5, 0⟩]
    deposites := []
    all_agents := []
    obstacles := []
    current_target_id := "1" }

/-- Same locked target `"1"` at distance 5, plus an untargeted item
`"2"` within pickup range of the agent. -/
def pStop : Perception :=
  { my_id := "A", my_x := 0, my_z := 0, spawn_x := 0, spawn_z := 0
    is_carrying := false
    items := [⟨"1", 5, 0⟩, ⟨"2", 1 / 2, 0⟩]
    deposites := []
    all_agents := []
    obstacles := []
    current_target_id := "1" }

/-- Carrying agent at `(9,9)` with spawn `(0,0)`, currently targeted
item `"7"` at `(9,9)`, and no visible delivery zone. -/
def pCarryNoZone : Perception :=
  { my_id := "A", my_x := 9, my_z := 9, spawn_x := 0, spawn_z := 0
    is_carrying := true
    items := [⟨"7", 9, 9⟩]
    deposites := []
    all_agents := []
    obstacles := []
    current_target_id := "7" }

/-- Non-carrying agent with an empty visible-task list. -/
def pNoItems : Perception :=
  { my_id := "A", my_x := 3, my_z := 4, spawn_x := 1, spawn_z := 2
    is_carrying := false
    items := []
    deposites := []
    all_agents := []
    obstacles := []
    current_target_id := "0" }

/-- An agent standing exactly on the only obstacle. -/
def pCoincident : Perception :=
  { my_id := "A", my_x := 1, my_z := 2, spawn_x := 0, spawn_z := 0
    is_carrying := false
    items := []
    deposites := []
    all_agents := []
    obstacles := [⟨1, 2⟩]
    current_target_id := "0" }

/-- Two equidistant non-carrying agents with parametric id strings:
self at `(3,0)`. -/
def idOrderAgentA (x : String) : Agent := ⟨x, 3, 0, 0, 0, false, "0"⟩

def idOrderAgentB (y : String) : Agent := ⟨y, -3, 0, 0, 0, false, "0"⟩

def idOrderSnap (x y : String) : Snapshot :=
  ⟨[idOrderAgentA x, idOrderAgentB y], [⟨"1", 0, 0⟩], [], []⟩

/-!
Helper lemmas about the embedded definitions, shared by the claim
theorems below.
-/

theorem decideAction_target_id (p : Perception) :
    (decide_action p).action.target_id = (resolveTarget p).1 := rfl

theorem decideAction_action_type (p : Perception) :
    (decide_action p).action.type =
      (movementAction p (resolveTarget p).1 (resolveTarget p).2.1
          (resolveTarget p).2.2).2 := rfl

theorem decideAction_movement_type (p : Perception) :
    (decide_action p).movement.type =
      (movementAction p (resolveTarget p).1 (resolveTarget p).2.1
          (resolveTarget p).2.2).1 := rfl

theorem isclose_refl (a : ℚ) : isclose a a := by
  simp only [isclose, sub_self, abs_zero]
  positivity

theorem lookupItem_some {items : List Item} {tid : String} {it : Item}
    (h : lookupItem items tid = some it) : it ∈ items ∧ it.id = tid := by
  unfold lookupItem at h
  refine ⟨List.mem_reverse.mp (List.mem_of_find?_eq_some h), ?_⟩
  simpa using List.find?_some h

theorem mem_availableItems {p : Perception} {it : Item}
    (h : it ∈ availableItems p) : it ∈ p.items ∧ it.id ∉ reservedSet p := by
  unfold availableItems at h
  simpa using List.mem_filter.mp h

theorem mem_sortedAvailable {p : Perception} {it : Item} :
    it ∈ sortedAvailable p ↔ it ∈ availableItems p :=
  (List.perm_insertionSort _ _).mem_iff

theorem length_sortedAvailable (p : Perception) :
    (sortedAvailable p).length = (availableItems p).length :=
  (List.perm_insertionSort _ _).length_eq

theorem tournament_mem {rid : String} {rx rz : ℚ} :
    ∀ (items : List Item) (peers : List (String × AgentData)) {it : Item},
      tournament rid rx rz items peers = some it → it ∈ items := by
  intro items
  induction items with
  | nil => intro peers it h; simp [tournament] at h
  | cons a rest ih =>
    intro peers it h
    rw [tournament] at h
    split at h
    · exact (Option.some_inj.mp h) ▸ List.mem_cons_self a rest
    · exact List.mem_cons_of_mem _ (ih _ h)

theorem tournament_single {rid : String} {rx rz : ℚ} {t : Item}
    {peers : List (String × AgentData)} {it : Item}
    (h : tournament rid rx rz [t] peers = some it) :
    it = t ∧
      (peers.foldl (tstep t.x t.z) (rid, distSq t.x t.z rx rz)).1 = rid := by
  rw [tournament] at h
  split at h
  · next hc => exact ⟨(Option.some_inj.mp h).symm, hc⟩
  · rw [tournament] at h; cases h

theorem foldl_tstep_fst (ix iz : ℚ) :
    ∀ (ps : List (String × AgentData)) (acc : String × ℚ),
      (ps.foldl (tstep ix iz) acc).1 = acc.1 ∨
        (ps.foldl (tstep ix iz) acc).1 ∈ ps.map Prod.fst := by
  intro ps
  induction ps with
  | nil => intro acc; left; rfl
  | cons q qs ih =>
    intro acc
    rw [List.foldl_cons]
    rcases ih (tstep ix iz acc q) with h | h
    · rw [h]
      simp only [tstep]
      split
      · right; simp
      · left; rfl
    · right; exact List.mem_cons_of_mem _ h

theorem foldl_tstep_stay (ix iz : ℚ) :
    ∀ (ps : List (String × AgentData)) (acc : String × ℚ),
      acc.1 ∉ ps.map Prod.fst →
      (ps.foldl (tstep ix iz) acc).1 = acc.1 →
      ∀ q ∈ ps,
        ¬(distSq ix iz q.2.x q.2.z < acc.2 ∨
          (isclose (distSq ix iz q.2.x q.2.z) acc.2 ∧ q.1 < acc.1)) := by
  intro ps
  induction ps with
  | nil => intro acc _ _ q hq; cases hq
  | cons r rs ih =>
    intro acc hnot h q hq
    rw [List.foldl_cons] at h
    by_cases hb : distSq ix iz r.2.x r.2.z < acc.2 ∨
        (isclose (distSq ix iz r.2.x r.2.z) acc.2 ∧ r.1 < acc.1)
    · exfalso
      have hstep : tstep ix iz acc r = (r.1, distSq ix iz r.2.x r.2.z) := by
        simp only [tstep]
        rw [if_pos hb]
      rw [hstep] at h
      rcases foldl_tstep_fst ix iz rs (r.1, distSq ix iz r.2.x r.2.z) with h2 | h2
      · rw [h] at h2
        refine hnot ?_
        simp only [List.map_cons, List.mem_cons]
        left
        simpa using h2
      · rw [h] at h2
        exact hnot (List.mem_cons_of_mem _ h2)
    · have hstep : tstep ix iz acc r = acc := by
        simp only [tstep]
        rw [if_neg hb]
      rw [hstep] at h
      rcases List.mem_cons.mp hq with rfl | hq2
      · exact hb
      · exact ih acc (fun hm => hnot (List.mem_cons_of_mem _ hm)) h q hq2

theorem self_not_mem_availablePeers (p : Perception) :
    p.my_id ∉ (availablePeers p).map Prod.fst := by
  intro h
  rcases List.mem_map.mp h with ⟨e, he, hfst⟩
  have h2 := (List.mem_filter.mp he).2
  simp only [Bool.and_eq_true, decide_eq_true_eq] at h2
  exact h2.1.1 hfst

theorem entry_mem_availablePeers {p : Perception} {e : String × AgentData}
    (he : e ∈ p.all_agents) (h1 : e.1 ≠ p.my_id)
    (h2 : e.2.current_target_id = "0") (h3 : e.2.is_carrying = false) :
    e ∈ availablePeers p :=
  List.mem_filter.mpr ⟨he, by simp [h1, h2, h3]⟩

theorem tournamentResolve_win {p : Perception} {it : Item}
    (h : tournament p.my_id p.my_x p.my_z (sortedAvailable p)
        (availablePeers p) = some it) :
    tournamentResolve p = (it.id, it.x, it.z) := by
  unfold tournamentResolve
  rw [h]

theorem tournamentResolve_none {p : Perception}
    (h : tournament p.my_id p.my_x p.my_z (sortedAvailable p)
        (availablePeers p) = none) :
    tournamentResolve p = ("0", p.spawn_x, p.spawn_z) := by
  unfold tournamentResolve
  rw [h]

theorem resolveTarget_carrying_fst {p : Perception}
    (hc : p.is_carrying = true) : (resolveTarget p).1 = "0" := by
  unfold resolveTarget
  rw [if_pos hc]
  split <;> rfl

theorem resolveTarget_carrying_nozones {p : Perception}
    (hc : p.is_carrying = true) (hd : p.deposites = []) :
    resolveTarget p = ("0", p.spawn_x, p.spawn_z) := by
  unfold resolveTarget
  rw [if_pos hc, hd]

theorem resolveTarget_sticky {p : Perception}
    (hc : p.is_carrying = false) (hct : p.current_target_id ≠ "0")
    {it : Item} (hfind : lookupItem p.items p.current_target_id = some it) :
    resolveTarget p = (p.current_target_id, it.x, it.z) := by
  unfold resolveTarget
  rw [if_neg (by simp [hc]), if_pos hct, hfind]

theorem resolveTarget_nofind {p : Perception}
    (hc : p.is_carrying = false) (hct : p.current_target_id ≠ "0")
    (hfind : lookupItem p.items p.current_target_id = none) :
    resolveTarget p = tournamentResolve p := by
  unfold resolveTarget
  rw [if_neg (by simp [hc]), if_pos hct, hfind]

theorem resolveTarget_fresh {p : Perception}
    (hc : p.is_carrying = false) (hct : p.current_target_id = "0") :
    resolveTarget p = tournamentResolve p := by
  unfold resolveTarget
  rw [if_neg (by simp [hc]), if_neg (by simp [hct])]

theorem resolveTarget_ne_zero {p : Perception}
    (h : (resolveTarget p).1 ≠ "0") :
    p.is_carrying = false ∧
    ((∃ it, lookupItem p.items p.current_target_id = some it ∧
        p.current_target_id ≠ "0" ∧
        resolveTarget p = (p.current_target_id, it.x, it.z)) ∨
      (∃ it,
        tournament p.my_id p.my_x p.my_z (sortedAvailable p)
            (availablePeers p) = some it ∧
        resolveTarget p = (it.id, it.x, it.z))) := by
  by_cases hc : p.is_carrying = true
  · exact absurd (resolveTarget_carrying_fst hc) h
  · have hc' : p.is_carrying = false := by simpa using hc
    refine ⟨hc', ?_⟩
    by_cases hct : p.current_target_id = "0"
    · right
      have hr := resolveTarget_fresh hc' hct
      cases htr : tournament p.my_id p.my_x p.my_z (sortedAvailable p)
          (availablePeers p) with
      | none =>
        exfalso
        rw [hr, tournamentResolve_none htr] at h
        exact h rfl
      | some it => exact ⟨it, rfl, hr.trans (tournamentResolve_win htr)⟩
    · cases hfind : lookupItem p.items p.current_target_id with
      | some it => exact Or.inl ⟨it, rfl, hct, resolveTarget_sticky hc' hct hfind⟩
      | none =>
        right
        have hr := resolveTarget_nofind hc' hct hfind
        cases htr : tournament p.my_id p.my_x p.my_z (sortedAvailable p)
            (availablePeers p) with
        | none =>
          exfalso
          rw [hr, tournamentResolve_none htr] at h
          exact h rfl
        | some it => exact ⟨it, rfl, hr.trans (tournamentResolve_win htr)⟩

theorem length_le_one_mem_eq {l : List Item} (h : l.length ≤ 1)
    {x y : Item} (hx : x ∈ l) (hy : y ∈ l) : x = y := by
  match l, h with
  | [], _ => cases hx
  | [a], _ =>
    rw [List.mem_singleton] at hx hy
    rw [hx, hy]

theorem length_le_one_singleton {l : List Item} (h : l.length ≤ 1)
    {x : Item} (hx : x ∈ l) : l = [x] := by
  match l, h with
  | [a], _ => rw [List.mem_singleton] at hx; rw [hx]

/-- C1 (amended): over one fixed consistent snapshot with at most one
visible task and no prior reservations, no two distinct agents running
`decide_action` select the same nonzero task id: if their outputs carry
the same target id, that id is `"0"`. -/
theorem no_duplicate_claim_single_task (s : Snapshot)
    (hitems : s.items.length ≤ 1)
    (hres : ∀ b ∈ s.agents, b.current_target_id = "0")
    (a b : Agent) (ha : a ∈ s.agents) (hb : b ∈ s.agents)
    (hne : a.id ≠ b.id)
    (heq : (decide_action (perceptionOf s a)).action.target_id =
      (decide_action (perceptionOf s b)).action.target_id) :
    (decide_action (perceptionOf s a)).action.target_id = "0" := by
  by_contra h0
  rw [decideAction_target_id] at h0 heq
  rw [decideAction_target_id (perceptionOf s b)] at heq
  have h0b : (resolveTarget (perceptionOf s b)).1 ≠ "0" := by
    rw [← heq]; exact h0
  obtain ⟨hcA, hA⟩ := resolveTarget_ne_zero h0
  obtain ⟨hcB, hB⟩ := resolveTarget_ne_zero h0b
  have hctA : (perceptionOf s a).current_target_id = "0" := hres a ha
  have hctB : (perceptionOf s b).current_target_id = "0" := hres b hb
  rcases hA with ⟨itA, _, hctA', _⟩ | ⟨itA, htA, _⟩
  · exact hctA' hctA
  rcases hB with ⟨itB, _, hctB', _⟩ | ⟨itB, htB, _⟩
  · exact hctB' hctB
  -- both winners come from the at-most-one-element candidate list
  have hmemA : itA ∈ sortedAvailable (perceptionOf s a) := tournament_mem _ _ htA
  have hmemB : itB ∈ sortedAvailable (perceptionOf s b) := tournament_mem _ _ htB
  have hitemsA : itA ∈ s.items :=
    (mem_availableItems (mem_sortedAvailable.mp hmemA)).1
  have hitemsB : itB ∈ s.items :=
    (mem_availableItems (mem_sortedAvailable.mp hmemB)).1
  have hAB : itA = itB := length_le_one_mem_eq hitems hitemsA hitemsB
  have hlenA : (sortedAvailable (perceptionOf s a)).length ≤ 1 := by
    rw [length_sortedAvailable]
    exact le_trans (List.length_filter_le _ _) hitems
  have hlenB : (sortedAvailable (perceptionOf s b)).length ≤ 1 := by
    rw [length_sortedAvailable]
    exact le_trans (List.length_filter_le _ _) hitems
  rw [length_le_one_singleton hlenA hmemA] at htA
  rw [length_le_one_singleton hlenB hmemB] at htB
  obtain ⟨-, hfoldA⟩ := tournament_single htA
  obtain ⟨-, hfoldB⟩ := tournament_single htB
  -- each other's snapshot entry is an eligible peer
  have hbc : b.carrying = false := hcB
  have hac : a.carrying = false := hcA
  have hentB : (b.id, (⟨b.x, b.z, b.carrying, b.current_target_id⟩ : AgentData)) ∈
      (perceptionOf s a).all_agents := List.mem_map.mpr ⟨b, hb, rfl⟩
  have hentA : (a.id, (⟨a.x, a.z, a.carrying, a.current_target_id⟩ : AgentData)) ∈
      (perceptionOf s b).all_agents := List.mem_map.mpr ⟨a, ha, rfl⟩
  have hpB : (b.id, (⟨b.x, b.z, b.carrying, b.current_target_id⟩ : AgentData)) ∈
      availablePeers (perceptionOf s a) :=
    entry_mem_availablePeers hentB (Ne.symm hne) (hres b hb) hbc
  have hpA : (a.id, (⟨a.x, a.z, a.carrying, a.current_target_id⟩ : AgentData)) ∈
      availablePeers (perceptionOf s b) :=
    entry_mem_availablePeers hentA hne (hres a ha) hac
  have hnA := foldl_tstep_stay itA.x itA.z (availablePeers (perceptionOf s a))
    (_, distSq itA.x itA.z (perceptionOf s a).my_x (perceptionOf s a).my_z)
    (self_not_mem_availablePeers (perceptionOf s a)) hfoldA _ hpB
  have hnB := foldl_tstep_stay itB.x itB.z (availablePeers (perceptionOf s b))
    (_, distSq itB.x itB.z (perceptionOf s b).my_x (perceptionOf s b).my_z)
    (self_not_mem_availablePeers (perceptionOf s b)) hfoldB _ hpA
  rw [← hAB] at hnB
  push_neg at hnA hnB
  simp only [perceptionOf] at hnA hnB
  have hle1 : distSq itA.x itA.z a.x a.z ≤ distSq itA.x itA.z b.x b.z := hnA.1
  have hle2 : distSq itA.x itA.z b.x b.z ≤ distSq itA.x itA.z a.x a.z := hnB.1
  have hd : distSq itA.x itA.z b.x b.z = distSq itA.x itA.z a.x a.z :=
    le_antisymm hle2 hle1
  have hnltB : ¬b.id < a.id := hnA.2 (by rw [hd]; exact isclose_refl _)
  have hnltA : ¬a.id < b.id := hnB.2 (by rw [hd]; exact isclose_refl _)
  exact hne (le_antisymm (not_lt.mp hnltB) (not_lt.mp hnltA))

/-- C2 (amended): whenever the sticky path is not taken (no nonzero
previous target still visible), a nonzero output target id of
`decide_action` is never an id reserved by another agent: the
tournament selects only from candidate tasks. -/
theorem tournament_no_reserved (p : Perception)
    (hsticky : ¬(p.current_target_id ≠ "0" ∧
      ∃ it ∈ p.items, it.id = p.current_target_id))
    (h : (decide_action p).action.target_id ≠ "0") :
    (decide_action p).action.target_id ∉ reservedSet p := by
  rw [decideAction_target_id] at h ⊢
  obtain ⟨hc, hcase⟩ := resolveTarget_ne_zero h
  rcases hcase with ⟨it, hfind, hct, _⟩ | ⟨it, htr, hr⟩
  · exact absurd ⟨hct, it, (lookupItem_some hfind).1, (lookupItem_some hfind).2⟩
      hsticky
  · rw [hr]
    have hmem := mem_availableItems (mem_sortedAvailable.mp (tournament_mem _ _ htr))
    simpa using hmem.2

/-- C3 (amended): for two non-carrying, reservation-free agents whose
squared distances to the single task are exactly equal, the agent with
the smaller id string wins the tournament and the other does not. -/
theorem smaller_id_wins_exact_tie (A B : Agent) (t : Item)
    (hAct : A.current_target_id = "0") (hBct : B.current_target_id = "0")
    (hAc : A.carrying = false) (hBc : B.carrying = false)
    (hlt : A.id < B.id)
    (heq : distSq t.x t.z A.x A.z = distSq t.x t.z B.x B.z) :
    (decide_action (perceptionOf ⟨[A, B], [t], [], []⟩ A)).action.target_id =
      t.id ∧
    (decide_action (perceptionOf ⟨[A, B], [t], [], []⟩ B)).action.target_id =
      "0" := by
  have hne : A.id ≠ B.id := ne_of_lt hlt
  have hnb : ¬(B.id < A.id) := lt_asymm hlt
  constructor
  · -- agent A wins the single-candidate tournament
    rw [decideAction_target_id]
    have hAP : availablePeers (perceptionOf ⟨[A, B], [t], [], []⟩ A) =
        [(B.id, ⟨B.x, B.z, B.carrying, B.current_target_id⟩)] := by
      simp [availablePeers, perceptionOf, List.filter, hBct, hBc, hne.symm]
    have hRS : reservedSet (perceptionOf ⟨[A, B], [t], [], []⟩ A) = [] := by
      simp [reservedSet, perceptionOf, List.filter, hAct, hBct]
    have hitA : (perceptionOf ⟨[A, B], [t], [], []⟩ A).items = [t] := rfl
    have hAI : availableItems (perceptionOf ⟨[A, B], [t], [], []⟩ A) = [t] := by
      simp only [availableItems]
      rw [hitA, hRS]
      simp
    have hSA : sortedAvailable (perceptionOf ⟨[A, B], [t], [], []⟩ A) = [t] := by
      simp only [sortedAvailable]
      rw [hAI]
      simp [List.insertionSort, List.orderedInsert]
    have hcond : ¬(distSq t.x t.z B.x B.z < distSq t.x t.z A.x A.z ∨
        (isclose (distSq t.x t.z B.x B.z) (distSq t.x t.z A.x A.z) ∧
          B.id < A.id)) := by
      rw [← heq]
      simp [hnb]
    have htour : tournament A.id A.x A.z [t]
        [(B.id, ⟨B.x, B.z, B.carrying, B.current_target_id⟩)] = some t := by
      rw [tournament]
      simp only [List.foldl_cons, List.foldl_nil, tstep]
      rw [if_neg hcond]
      simp
    have : tournament (perceptionOf ⟨[A, B], [t], [], []⟩ A).my_id
        (perceptionOf ⟨[A, B], [t], [], []⟩ A).my_x
        (perceptionOf ⟨[A, B], [t], [], []⟩ A).my_z
        (sortedAvailable (perceptionOf ⟨[A, B], [t], [], []⟩ A))
        (availablePeers (perceptionOf ⟨[A, B], [t], [], []⟩ A)) = some t := by
      rw [hSA, hAP]; exact htour
    rw [resolveTarget_fresh hAc hAct, tournamentResolve_win this]
  · -- agent B loses the tie-break to A
    rw [decideAction_target_id]
    have hAP : availablePeers (perceptionOf ⟨[A, B], [t], [], []⟩ B) =
        [(A.id, ⟨A.x, A.z, A.carrying, A.current_target_id⟩)] := by
      simp [availablePeers, perceptionOf, List.filter, hAct, hAc, hne]
    have hRS : reservedSet (perceptionOf ⟨[A, B], [t], [], []⟩ B) = [] := by
      simp [reservedSet, perceptionOf, List.filter, hAct, hBct]
    have hitB : (perceptionOf ⟨[A, B], [t], [], []⟩ B).items = [t] := rfl
    have hBI : availableItems (perceptionOf ⟨[A, B], [t], [], []⟩ B) = [t] := by
      simp only [availableItems]
      rw [hitB, hRS]
      simp
    have hSA : sortedAvailable (perceptionOf ⟨[A, B], [t], [], []⟩ B) = [t] := by
      simp only [sortedAvailable]
      rw [hBI]
      simp [List.insertionSort, List.orderedInsert]
    have hcond : distSq t.x t.z A.x A.z < distSq t.x t.z B.x B.z ∨
        (isclose (distSq t.x t.z A.x A.z) (distSq t.x t.z B.x B.z) ∧
          A.id < B.id) :=
      Or.inr ⟨heq ▸ isclose_refl _, hlt⟩
    have htour : tournament B.id B.x B.z [t]
        [(A.id, ⟨A.x, A.z, A.carrying, A.current_target_id⟩)] = none := by
      rw [tournament]
      simp only [List.foldl_cons, List.foldl_nil, tstep]
      rw [if_pos hcond, if_neg (by simpa using hne)]
      rw [tournament]
    have : tournament (perceptionOf ⟨[A, B], [t], [], []⟩ B).my_id
        (perceptionOf ⟨[A, B], [t], [], []⟩ B).my_x
        (perceptionOf ⟨[A, B], [t], [], []⟩ B).my_z
        (sortedAvailable (perceptionOf ⟨[A, B], [t], [], []⟩ B))
        (availablePeers (perceptionOf ⟨[A, B], [t], [], []⟩ B)) = none := by
      rw [hSA, hAP]; exact htour
    rw [resolveTarget_fresh hBc hBct, tournamentResolve_none this]


/-- C8 (amended): the tournament's id comparison is the total
lexicographic order on the raw id strings, not the numeric order
induced by `get_id_int`: over the equidistant two-agent snapshot the
self agent loses exactly when the peer's id string is smaller. -/
theorem tournament_uses_string_order (x y : String) :
    (decide_action (perceptionOf (idOrderSnap x y)
        (idOrderAgentA x))).action.target_id =
      if y < x then "0" else "1" := by
  rw [decideAction_target_id, resolveTarget_fresh rfl rfl]
  have hRS : reservedSet (perceptionOf (idOrderSnap x y) (idOrderAgentA x)) =
      [] := by
    simp [reservedSet, perceptionOf, idOrderSnap, idOrderAgentA, idOrderAgentB,
      List.filter]
  have hAI : availableItems (perceptionOf (idOrderSnap x y) (idOrderAgentA x)) =
      [⟨"1", 0, 0⟩] := by
    simp only [availableItems]
    rw [show (perceptionOf (idOrderSnap x y) (idOrderAgentA x)).items =
      [⟨"1", 0, 0⟩] from rfl, hRS]
    simp
  have hSA : sortedAvailable (perceptionOf (idOrderSnap x y) (idOrderAgentA x)) =
      [⟨"1", 0, 0⟩] := by
    simp only [sortedAvailable]
    rw [hAI]
    simp [List.insertionSort, List.orderedInsert]
  have hd : distSq (0 : ℚ) 0 (-3) 0 = distSq 0 0 3 0 := by norm_num [distSq]
  by_cases hxy : y = x
  · subst hxy
    have hAP : availablePeers (perceptionOf (idOrderSnap y y) (idOrderAgentA y)) =
        [] := by
      simp [availablePeers, perceptionOf, idOrderSnap, idOrderAgentA,
        idOrderAgentB, List.filter]
    have htour : tournament y 3 0 [(⟨"1", 0, 0⟩ : Item)] [] =
        some ⟨"1", 0, 0⟩ := by
      rw [tournament]
      simp
    have hglue : tournament
        (perceptionOf (idOrderSnap y y) (idOrderAgentA y)).my_id
        (perceptionOf (idOrderSnap y y) (idOrderAgentA y)).my_x
        (perceptionOf (idOrderSnap y y) (idOrderAgentA y)).my_z
        (sortedAvailable (perceptionOf (idOrderSnap y y) (idOrderAgentA y)))
        (availablePeers (perceptionOf (idOrderSnap y y) (idOrderAgentA y))) =
        some ⟨"1", 0, 0⟩ := by
      rw [hSA, hAP]; exact htour
    rw [tournamentResolve_win hglue, if_neg (lt_irrefl y)]
  · have hAP : availablePeers (perceptionOf (idOrderSnap x y) (idOrderAgentA x)) =
        [(y, ⟨-3, 0, false, "0"⟩)] := by
      simp [availablePeers, perceptionOf, idOrderSnap, idOrderAgentA,
        idOrderAgentB, List.filter, hxy]
    by_cases hlt : y < x
    · have hcond : distSq (0 : ℚ) 0 (-3) 0 < distSq 0 0 3 0 ∨
          (isclose (distSq (0 : ℚ) 0 (-3) 0) (distSq 0 0 3 0) ∧ y < x) :=
        Or.inr ⟨hd ▸ isclose_refl _, hlt⟩
      have htour : tournament x 3 0 [(⟨"1", 0, 0⟩ : Item)]
          [(y, ⟨-3, 0, false, "0"⟩)] = none := by
        rw [tournament]
        simp only [List.foldl_cons, List.foldl_nil, tstep]
        rw [if_pos hcond, if_neg hxy]
        rw [tournament]
      have hglue : tournament
          (perceptionOf (idOrderSnap x y) (idOrderAgentA x)).my_id
          (perceptionOf (idOrderSnap x y) (idOrderAgentA x)).my_x
          (perceptionOf (idOrderSnap x y) (idOrderAgentA x)).my_z
          (sortedAvailable (perceptionOf (idOrderSnap x y) (idOrderAgentA x)))
          (availablePeers (perceptionOf (idOrderSnap x y) (idOrderAgentA x))) =
          none := by
        rw [hSA, hAP]; exact htour
      rw [tournamentResolve_none hglue, if_pos hlt]
    · have hcond : ¬(distSq (0 : ℚ) 0 (-3) 0 < distSq 0 0 3 0 ∨
          (isclose (distSq (0 : ℚ) 0 (-3) 0) (distSq 0 0 3 0) ∧ y < x)) := by
        rw [hd]
        simp [hlt]
      have htour : tournament x 3 0 [(⟨"1", 0, 0⟩ : Item)]
          [(y, ⟨-3, 0, false, "0"⟩)] = some ⟨"1", 0, 0⟩ := by
        rw [tournament]
        simp only [List.foldl_cons, List.foldl_nil, tstep]
        rw [if_neg hcond]
        simp
      have hglue : tournament
          (perceptionOf (idOrderSnap x y) (idOrderAgentA x)).my_id
          (perceptionOf (idOrderSnap x y) (idOrderAgentA x)).my_x
          (perceptionOf (idOrderSnap x y) (idOrderAgentA x)).my_z
          (sortedAvailable (perceptionOf (idOrderSnap x y) (idOrderAgentA x)))
          (availablePeers (perceptionOf (idOrderSnap x y) (idOrderAgentA x))) =
          some ⟨"1", 0, 0⟩ := by
        rw [hSA, hAP]; exact htour
      rw [tournamentResolve_win hglue, if_neg hlt]

/-- C4 (amended): the movement type is always `stop` or `walk`, and it
is `stop` exactly when either the non-carrying agent has a nonzero
resolved target and some visible item within 1.0, or the carrying agent
is within 0.6 of its resolved target (squared: 9/25); it is not a
function of the distance to the target alone. -/
theorem movement_stop_characterization (p : Perception) :
    ((decide_action p).movement.type = "stop" ↔
      ((p.is_carrying = false ∧ (decide_action p).action.target_id ≠ "0" ∧
          near_item p.my_x p.my_z p.items = true) ∨
        (p.is_carrying = true ∧
          distSq (resolveTarget p).2.1 (resolveTarget p).2.2 p.my_x p.my_z <
            9 / 25))) ∧
    ((decide_action p).movement.type = "stop" ∨
      (decide_action p).movement.type = "walk") := by
  rw [decideAction_movement_type, decideAction_target_id]
  simp only [movementAction]
  split_ifs with h2 h1
  · refine ⟨⟨fun _ => Or.inr ⟨h2.1, h2.2⟩, fun _ => rfl⟩, Or.inl rfl⟩
  · refine ⟨⟨fun _ => Or.inl ⟨by simpa using h1.1, h1.2.1, h1.2.2⟩,
      fun _ => rfl⟩, Or.inl rfl⟩
  · constructor
    · constructor
      · intro h; exact absurd h (by decide)
      · rintro (⟨hcf, htid, hnear⟩ | ⟨hct, hdist⟩)
        · exact absurd ⟨by simp [hcf], htid, hnear⟩ h1
        · exact absurd ⟨hct, hdist⟩ h2
    · exact Or.inr rfl

/-- C10: `pick_up` is emitted exactly when the agent is not carrying,
its resolved target id is nonzero, and some visible item (not
necessarily the targeted one) lies strictly within 1.0; and `pick_up`
always comes with movement `stop`. -/
theorem pick_up_characterization (p : Perception) :
    ((decide_action p).action.type = "pick_up" ↔
      (p.is_carrying = false ∧ (decide_action p).action.target_id ≠ "0" ∧
        near_item p.my_x p.my_z p.items = true)) ∧
    ((decide_action p).action.type = "pick_up" →
      (decide_action p).movement.type = "stop") := by
  rw [decideAction_action_type, decideAction_movement_type,
    decideAction_target_id]
  simp only [movementAction]
  split_ifs with h2 h1
  · refine ⟨⟨fun h => absurd h (by decide), fun hh => ?_⟩, fun h => absurd h (by decide)⟩
    rcases hh with ⟨hcf, _, _⟩
    rw [h2.1] at hcf
    cases hcf
  · exact ⟨⟨fun _ => ⟨by simpa using h1.1, h1.2.1, h1.2.2⟩, fun _ => rfl⟩,
      fun _ => rfl⟩
  · refine ⟨⟨fun h => absurd h (by decide), fun hh => ?_⟩, fun h => absurd h (by decide)⟩
    rcases hh with ⟨hcf, htid, hnear⟩
    exact absurd ⟨by simp [hcf], htid, hnear⟩ h1

/-- C5 (amended): a carrying agent with no visible delivery zone
resolves its destination to the spawn position (the decision is total,
no exception is modelled), with target id `"0"`. -/
theorem carrying_no_zone_spawn_fallback (p : Perception)
    (h1 : p.is_carrying = true) (h2 : p.deposites = []) :
    resolveTarget p = ("0", p.spawn_x, p.spawn_z) ∧
    (decide_action p).action.target_id = "0" := by
  have hr := resolveTarget_carrying_nozones h1 h2
  exact ⟨hr, by rw [decideAction_target_id, hr]⟩

/-- C6: a non-carrying agent with an empty visible-task list resolves
the target id to `"0"` and the destination to its spawn position; the
decision is total, so no exception occurs. -/
theorem no_tasks_spawn_fallback (p : Perception) (h1 : p.is_carrying = false)
    (h2 : p.items = []) :
    (decide_action p).action.target_id = "0" ∧
    resolveTarget p = ("0", p.spawn_x, p.spawn_z) := by
  have hAI : availableItems p = [] := by simp [availableItems, h2]
  have hSA : sortedAvailable p = [] := by
    simp only [sortedAvailable]
    rw [hAI]
    rfl
  have htr : tournament p.my_id p.my_x p.my_z (sortedAvailable p)
      (availablePeers p) = none := by
    rw [hSA, tournament]
  have hr : resolveTarget p = ("0", p.spawn_x, p.spawn_z) := by
    by_cases hct : p.current_target_id = "0"
    · rw [resolveTarget_fresh h1 hct, tournamentResolve_none htr]
    · have hfind : lookupItem p.items p.current_target_id = none := by
        simp [lookupItem, h2]
      rw [resolveTarget_nofind h1 hct hfind, tournamentResolve_none htr]
  exact ⟨by rw [decideAction_target_id, hr], hr⟩

/-- C9: `decide_all` returns exactly one decision per input agent id in
order; each agent's entry depends only on its own payload, and a payload
on which `decide_action` raises yields the safe stop/none decision
without affecting the rest of the batch. -/
theorem batch_isolation (ps : List (String × Option Perception)) :
    (decide_all ps).map Prod.fst = ps.map Prod.fst ∧
    (∀ pre e post, ps = pre ++ e :: post →
      decide_all ps = decide_all pre ++ decideOne e :: decide_all post) ∧
    (∀ e : String × Option Perception, ∀ msg,
      decideActionE e.2 = Except.error msg →
      decideOne e = (e.1, safeDecision)) := by
  refine ⟨?_, ?_, ?_⟩
  · induction ps with
    | nil => rfl
    | cons a t ih =>
      simp only [decide_all, List.map_cons] at ih ⊢
      rw [ih]
      rfl
  · intro pre e post hps
    subst hps
    simp [decide_all]
  · intro e msg h
    simp [decideOne, h]

theorem abs_le_sqrt_sq_add (dx dz : ℝ) :
    |dx| ≤ Real.sqrt (dx ^ 2 + dz ^ 2) := by
  rw [← Real.sqrt_sq_eq_abs]
  exact Real.sqrt_le_sqrt (by nlinarith [sq_nonneg dz])

theorem aux_term_bound {u d R c k : ℝ} (hd0 : 0 < d) (hdR : d < R)
    (hc : 0 < c) (hk : 0 ≤ k) (hu : |u| ≤ d) :
    |u / d * ((R - d) / c) * k| ≤ R / c * k := by
  have h1 : |u / d| ≤ 1 := by
    rw [abs_div, abs_of_pos hd0]
    exact (div_le_one hd0).mpr hu
  have hR0 : (0 : ℝ) < R := lt_trans hd0 hdR
  have h2 : |(R - d) / c| ≤ R / c := by
    rw [abs_div, abs_of_pos hc, abs_of_pos (by linarith : (0 : ℝ) < R - d)]
    exact (div_le_div_iff_of_pos_right hc).mpr (by linarith)
  have hRc : (0 : ℝ) ≤ R / c := by positivity
  calc |u / d * ((R - d) / c) * k| = |u / d| * |(R - d) / c| * |k| := by
        rw [abs_mul, abs_mul]
    _ ≤ 1 * (R / c) * k := by
        apply mul_le_mul _ (le_of_eq (abs_of_nonneg hk)) (abs_nonneg k)
        · positivity
        · exact mul_le_mul h1 h2 (abs_nonneg _) zero_le_one
    _ = R / c * k := by ring

theorem obstacleTerm_coincident (rx rz ox oz : ℝ) (hx : ox = rx) (hz : oz = rz) :
    obstacleTerm rx rz ox oz = (0, 0) := by
  subst hx hz
  simp [obstacleTerm]

theorem agentTerm_coincident (rx rz ox oz : ℝ) (hx : ox = rx) (hz : oz = rz) :
    agentTerm rx rz ox oz = (0, 0) := by
  subst hx hz
  simp [agentTerm]

theorem abs_obstacleTerm_le (rx rz ox oz : ℝ) :
    |(obstacleTerm rx rz ox oz).1| ≤ 1.5 ∧
    |(obstacleTerm rx rz ox oz).2| ≤ 1.5 := by
  simp only [obstacleTerm]
  split_ifs with h
  · obtain ⟨hd0, hd15⟩ := h
    constructor
    · have := aux_term_bound (u := rx - ox) hd0 hd15 (by norm_num : (0:ℝ) < 1.5)
        (by norm_num : (0:ℝ) ≤ 1.5) (abs_le_sqrt_sq_add _ (rz - oz))
      calc |(rx - ox) / Real.sqrt ((rx - ox) ^ 2 + (rz - oz) ^ 2) *
            ((1.5 - Real.sqrt ((rx - ox) ^ 2 + (rz - oz) ^ 2)) / 1.5) * 1.5|
          ≤ 1.5 / 1.5 * 1.5 := this
        _ ≤ 1.5 := by norm_num
    · have hzz : |rz - oz| ≤ Real.sqrt ((rx - ox) ^ 2 + (rz - oz) ^ 2) := by
        rw [← Real.sqrt_sq_eq_abs]
        exact Real.sqrt_le_sqrt (by nlinarith [sq_nonneg (rx - ox)])
      have := aux_term_bound (u := rz - oz) hd0 hd15 (by norm_num : (0:ℝ) < 1.5)
        (by norm_num : (0:ℝ) ≤ 1.5) hzz
      calc |(rz - oz) / Real.sqrt ((rx - ox) ^ 2 + (rz - oz) ^ 2) *
            ((1.5 - Real.sqrt ((rx - ox) ^ 2 + (rz - oz) ^ 2)) / 1.5) * 1.5|
          ≤ 1.5 / 1.5 * 1.5 := this
        _ ≤ 1.5 := by norm_num
  · norm_num

theorem abs_agentTerm_le (rx rz ox oz : ℝ) :
    |(agentTerm rx rz ox oz).1| ≤ 1 ∧ |(agentTerm rx rz ox oz).2| ≤ 1 := by
  simp only [agentTerm]
  split_ifs with h
  · obtain ⟨hd0, hd05⟩ := h
    constructor
    · have := aux_term_bound (u := rx - ox) hd0 hd05 (by norm_num : (0:ℝ) < 1)
        (by norm_num : (0:ℝ) ≤ 2) (abs_le_sqrt_sq_add _ (rz - oz))
      calc |(rx - ox) / Real.sqrt ((rx - ox) ^ 2 + (rz - oz) ^ 2) *
            ((0.5 - Real.sqrt ((rx - ox) ^ 2 + (rz - oz) ^ 2)) / 1) * 2|
          ≤ 0.5 / 1 * 2 := this
        _ ≤ 1 := by norm_num
    · have hzz : |rz - oz| ≤ Real.sqrt ((rx - ox) ^ 2 + (rz - oz) ^ 2) := by
        rw [← Real.sqrt_sq_eq_abs]
        exact Real.sqrt_le_sqrt (by nlinarith [sq_nonneg (rx - ox)])
      have := aux_term_bound (u := rz - oz) hd0 hd05 (by norm_num : (0:ℝ) < 1)
        (by norm_num : (0:ℝ) ≤ 2) hzz
      calc |(rz - oz) / Real.sqrt ((rx - ox) ^ 2 + (rz - oz) ^ 2) *
            ((0.5 - Real.sqrt ((rx - ox) ^ 2 + (rz - oz) ^ 2)) / 1) * 2|
          ≤ 0.5 / 1 * 2 := this
        _ ≤ 1 := by norm_num
  · norm_num

theorem fst_list_sum (l : List (ℝ × ℝ)) : l.sum.1 = (l.map Prod.fst).sum := by
  induction l with
  | nil => rfl
  | cons a t ih => simp [List.sum_cons, ih]

theorem snd_list_sum (l : List (ℝ × ℝ)) : l.sum.2 = (l.map Prod.snd).sum := by
  induction l with
  | nil => rfl
  | cons a t ih => simp [List.sum_cons, ih]

theorem abs_list_sum_le (l : List ℝ) (c : ℝ) (_hc : 0 ≤ c)
    (h : ∀ x ∈ l, |x| ≤ c) : |l.sum| ≤ l.length * c := by
  induction l with
  | nil => simp
  | cons a t ih =>
    simp only [List.sum_cons, List.length_cons]
    calc |a + t.sum| ≤ |a| + |t.sum| := abs_add _ _
      _ ≤ c + t.length * c :=
        add_le_add (h a (List.mem_cons_self a t))
          (ih fun x hx => h x (List.mem_cons_of_mem a hx))
      _ = (t.length + 1 : ℕ) * c := by push_cast; ring

theorem avoidance_bound (p : Perception) :
    |(avoidance p).1| ≤ 1.5 * p.obstacles.length + p.all_agents.length ∧
    |(avoidance p).2| ≤ 1.5 * p.obstacles.length + p.all_agents.length := by
  have hobs1 : |((p.obstacles.map fun o =>
      obstacleTerm (p.my_x : ℝ) (p.my_z : ℝ) (o.x : ℝ) (o.z : ℝ)).sum).1| ≤
      p.obstacles.length * 1.5 := by
    rw [fst_list_sum, List.map_map]
    have := abs_list_sum_le (p.obstacles.map fun o =>
        (obstacleTerm (p.my_x : ℝ) (p.my_z : ℝ) (o.x : ℝ) (o.z : ℝ)).1) 1.5
      (by norm_num)
      (by
        intro v hv
        rcases List.mem_map.mp hv with ⟨o, _, rfl⟩
        exact (abs_obstacleTerm_le _ _ _ _).1)
    simpa [List.map_map] using this
  have hobs2 : |((p.obstacles.map fun o =>
      obstacleTerm (p.my_x : ℝ) (p.my_z : ℝ) (o.x : ℝ) (o.z : ℝ)).sum).2| ≤
      p.obstacles.length * 1.5 := by
    rw [snd_list_sum, List.map_map]
    have := abs_list_sum_le (p.obstacles.map fun o =>
        (obstacleTerm (p.my_x : ℝ) (p.my_z : ℝ) (o.x : ℝ) (o.z : ℝ)).2) 1.5
      (by norm_num)
      (by
        intro v hv
        rcases List.mem_map.mp hv with ⟨o, _, rfl⟩
        exact (abs_obstacleTerm_le _ _ _ _).2)
    simpa [List.map_map] using this
  have hag1 : |(((p.all_agents.filter fun e => e.1 ≠ p.my_id).map fun e =>
      agentTerm (p.my_x : ℝ) (p.my_z : ℝ) (e.2.x : ℝ) (e.2.z : ℝ)).sum).1| ≤
      p.all_agents.length := by
    rw [fst_list_sum]
    have hb := abs_list_sum_le (((p.all_agents.filter fun e =>
        e.1 ≠ p.my_id).map fun e =>
        agentTerm (p.my_x : ℝ) (p.my_z : ℝ) (e.2.x : ℝ) (e.2.z : ℝ)).map
        Prod.fst) 1 (by norm_num)
      (by
        intro v hv
        rcases List.mem_map.mp hv with ⟨w, hw, rfl⟩
        rcases List.mem_map.mp hw with ⟨e, _, rfl⟩
        exact (abs_agentTerm_le _ _ _ _).1)
    rw [mul_one, List.length_map, List.length_map] at hb
    refine le_trans hb ?_
    exact_mod_cast List.length_filter_le _ _
  have hag2 : |(((p.all_agents.filter fun e => e.1 ≠ p.my_id).map fun e =>
      agentTerm (p.my_x : ℝ) (p.my_z : ℝ) (e.2.x : ℝ) (e.2.z : ℝ)).sum).2| ≤
      p.all_agents.length := by
    rw [snd_list_sum]
    have hb := abs_list_sum_le (((p.all_agents.filter fun e =>
        e.1 ≠ p.my_id).map fun e =>
        agentTerm (p.my_x : ℝ) (p.my_z : ℝ) (e.2.x : ℝ) (e.2.z : ℝ)).map
        Prod.snd) 1 (by norm_num)
      (by
        intro v hv
        rcases List.mem_map.mp hv with ⟨w, hw, rfl⟩
        rcases List.mem_map.mp hw with ⟨e, _, rfl⟩
        exact (abs_agentTerm_le _ _ _ _).2)
    rw [mul_one, List.length_map, List.length_map] at hb
    refine le_trans hb ?_
    exact_mod_cast List.length_filter_le _ _
  constructor
  · have habs : |(avoidance p).1| ≤
        |((p.obstacles.map fun o =>
          obstacleTerm (p.my_x : ℝ) (p.my_z : ℝ) (o.x : ℝ) (o.z : ℝ)).sum).1| +
        |(((p.all_agents.filter fun e => e.1 ≠ p.my_id).map fun e =>
          agentTerm (p.my_x : ℝ) (p.my_z : ℝ) (e.2.x : ℝ) (e.2.z : ℝ)).sum).1| := by
      simp only [avoidance, Prod.fst_add]
      exact abs_add _ _
    refine le_trans habs (le_trans (add_le_add hobs1 hag1) (le_of_eq (by ring)))
  · have habs : |(avoidance p).2| ≤
        |((p.obstacles.map fun o =>
          obstacleTerm (p.my_x : ℝ) (p.my_z : ℝ) (o.x : ℝ) (o.z : ℝ)).sum).2| +
        |(((p.all_agents.filter fun e => e.1 ≠ p.my_id).map fun e =>
          agentTerm (p.my_x : ℝ) (p.my_z : ℝ) (e.2.x : ℝ) (e.2.z : ℝ)).sum).2| := by
      simp only [avoidance, Prod.snd_add]
      exact abs_add _ _
    refine le_trans habs (le_trans (add_le_add hobs2 hag2) (le_of_eq (by ring)))

/-- C7: every coincident (distance-zero) obstacle or peer contributes
the zero offset (its repulsion term is skipped by the `0 < d` guard, so
no division by zero is ever performed), and the total avoidance offset
is bounded by `1.5` per obstacle plus `1` per peer in each coordinate. -/
theorem avoidance_zero_distance_guard (p : Perception) :
    (∀ o ∈ p.obstacles,
      ((o.x : ℝ) = (p.my_x : ℝ) ∧ (o.z : ℝ) = (p.my_z : ℝ)) →
      obstacleTerm (p.my_x : ℝ) (p.my_z : ℝ) (o.x : ℝ) (o.z : ℝ) = (0, 0)) ∧
    (∀ e ∈ p.all_agents,
      ((e.2.x : ℝ) = (p.my_x : ℝ) ∧ (e.2.z : ℝ) = (p.my_z : ℝ)) →
      agentTerm (p.my_x : ℝ) (p.my_z : ℝ) (e.2.x : ℝ) (e.2.z : ℝ) = (0, 0)) ∧
    |(avoidance p).1| ≤ 1.5 * p.obstacles.length + p.all_agents.length ∧
    |(avoidance p).2| ≤ 1.5 * p.obstacles.length + p.all_agents.length := by
  refine ⟨?_, ?_, (avoidance_bound p).1, (avoidance_bound p).2⟩
  · intro o _ h
    exact obstacleTerm_coincident _ _ _ _ h.1 h.2
  · intro e _ h
    exact agentTerm_coincident _ _ _ _ h.1 h.2

/-- C7 (witness): the agent of `pCoincident` stands exactly on its only
obstacle; that obstacle's term is `(0, 0)` and the offset is bounded. -/
theorem avoidance_zero_distance_guard_witness :
    obstacleTerm (pCoincident.my_x : ℝ) (pCoincident.my_z : ℝ)
      ((1 : ℚ) : ℝ) ((2 : ℚ) : ℝ) = (0, 0) ∧
    |(avoidance pCoincident).1| ≤
      1.5 * pCoincident.obstacles.length + pCoincident.all_agents.length :=
  ⟨(avoidance_zero_distance_guard pCoincident).1 ⟨1, 2⟩
      (by simp [pCoincident]) ⟨rfl, rfl⟩,
    (avoidance_zero_distance_guard pCoincident).2.2.1⟩

/-- C1 (counterexample): over the single shared snapshot `sDup` (two
tasks, no reservations, both agents non-carrying), `Robot_1` and
`Robot_2` both select the same unreserved task id `"1"`: `Robot_2`
wrongly assumes `Robot_1` takes task `"2"` and removes it from its
simulated pool. -/
theorem duplicate_claim_counterexample :
    (decide_action (perceptionOf sDup aDup)).action.target_id = "1" ∧
    (decide_action (perceptionOf sDup bDup)).action.target_id = "1" ∧
    aDup.id ≠ bDup.id ∧
    reservedSet (perceptionOf sDup aDup) = [] ∧
    reservedSet (perceptionOf sDup bDup) = [] := by
  refine ⟨?_, ?_, by decide, ?_, ?_⟩ <;>
  norm_num +decide [decide_action, resolveTarget, tournamentResolve, tournament, tstep,
    sortedAvailable, availableItems, availablePeers, reservedSet, perceptionOf,
    distSq, isclose, near_item, List.insertionSort, List.orderedInsert,
    String.lt_iff_toList_lt, aDup, bDup, sDup, List.filter, List.foldl,
    abs_eq_max_neg, sup_eq_max, max_def]

/-- C1 (witness): spec scenario 1 over the single-task snapshot `sOne`:
`Robot_1` at the origin claims the task at `(2,0)`, `Robot_2` at `(5,0)`
does not, and the amended no-duplicate-claim theorem applies. -/
theorem no_duplicate_claim_single_task_witness :
    (decide_action (perceptionOf sOne aDup)).action.target_id = "1" ∧
    (decide_action (perceptionOf sOne bDup)).action.target_id = "0" ∧
    ((decide_action (perceptionOf sOne aDup)).action.target_id =
        (decide_action (perceptionOf sOne bDup)).action.target_id →
      (decide_action (perceptionOf sOne aDup)).action.target_id = "0") := by
  refine ⟨?_, ?_,
    no_duplicate_claim_single_task sOne (by decide) (by decide) aDup bDup
      (by decide) (by decide) (by decide)⟩ <;>
  norm_num +decide [decide_action, resolveTarget, tournamentResolve, tournament, tstep,
    sortedAvailable, availableItems, availablePeers, reservedSet, perceptionOf,
    distSq, isclose, near_item, List.insertionSort, List.orderedInsert,
    String.lt_iff_toList_lt, aDup, bDup, sOne, List.filter, List.foldl,
    abs_eq_max_neg, sup_eq_max, max_def]

/-- C2 (counterexample): the sticky path of `pSticky` keeps the
previous target `"7"` although `"7"` is reserved by the other agent, so
the resolver's output id lies in the reservation set. -/
theorem sticky_keeps_reserved_target :
    (decide_action pSticky).action.target_id = "7" ∧
    (decide_action pSticky).action.target_id ∈ reservedSet pSticky := by
  have h7 : (decide_action pSticky).action.target_id = "7" := by
    simp +decide [decide_action, resolveTarget, lookupItem, pSticky]
  refine ⟨h7, ?_⟩
  rw [h7]
  simp +decide [reservedSet, pSticky]

/-- C2 (witness): for `pTournamentW` the sticky path is not taken, the
tournament picks `"5"`, and the amended theorem shows the output id is
not reserved. -/
theorem tournament_no_reserved_witness :
    (decide_action pTournamentW).action.target_id = "5" ∧
    (decide_action pTournamentW).action.target_id ∉
      reservedSet pTournamentW := by
  have h5 : (decide_action pTournamentW).action.target_id = "5" := by
    norm_num [decide_action, resolveTarget, tournamentResolve, tournament,
      tstep, sortedAvailable, availableItems, availablePeers, reservedSet,
      perceptionOf, distSq, isclose, near_item, List.insertionSort,
      List.orderedInsert, pTournamentW, List.filter, List.foldl,
      lookupItem, abs_eq_max_neg, sup_eq_max, max_def]
  exact ⟨h5, tournament_no_reserved pTournamentW (by simp [pTournamentW])
    (by rw [h5]; decide)⟩

/-- C3 (counterexample): over `sNearTie` the two squared distances
`99.0025` and `100` are equal within the 1 percent relative tolerance,
agent `"A"` has the smaller id, yet `"A"` does not win (the strictly
closer `"B"` beats it), and `"B"` does not win either (the id tie-break
hands priority back to `"A"`): nobody claims the task. -/
theorem near_tie_smaller_id_loses :
    isclose (distSq 0 0 (199 / 20) 0) (distSq 0 0 10 0) ∧
    aNearTie.id < bNearTie.id ∧
    (decide_action (perceptionOf sNearTie aNearTie)).action.target_id = "0" ∧
    (decide_action (perceptionOf sNearTie bNearTie)).action.target_id =
      "0" := by
  refine ⟨by norm_num [isclose, distSq, abs_eq_max_neg, sup_eq_max, max_def],
    by simp +decide [aNearTie, bNearTie, String.lt_iff_toList_lt], ?_, ?_⟩ <;>
  norm_num +decide [decide_action, resolveTarget, tournamentResolve,
    tournament, tstep, sortedAvailable, availableItems, availablePeers,
    reservedSet, perceptionOf, distSq, isclose, near_item,
    List.insertionSort, List.orderedInsert, String.lt_iff_toList_lt,
    aNearTie, bNearTie, sNearTie, List.filter, List.foldl,
    abs_eq_max_neg, sup_eq_max, max_def]

/-- C3 (witness): spec scenario 2: `A1` at `(3,0)` and `B2` at `(-3,0)`
are exactly equidistant from the task at the origin; `A1` (smaller id)
claims it and `B2` does not. -/
theorem smaller_id_wins_exact_tie_witness :
    (decide_action (perceptionOf sTie aTie)).action.target_id = "1" ∧
    (decide_action (perceptionOf sTie bTie)).action.target_id = "0" :=
  smaller_id_wins_exact_tie aTie bTie ⟨"1", 0, 0⟩ rfl rfl rfl rfl
    (by simp +decide [aTie, bTie, String.lt_iff_toList_lt])
    (by norm_num [distSq, aTie, bTie])

/-- C4 (counterexample): `pWalk` and `pStop` put the agent at the same
position with the same resolved target `(5, 0)`, hence the same
distance to target, yet one moves with `walk` and the other with
`stop`: movement type is not a function of that distance alone. -/
theorem movement_not_function_of_distance :
    resolveTarget pWalk = ("1", 5, 0) ∧
    resolveTarget pStop = ("1", 5, 0) ∧
    pWalk.my_x = pStop.my_x ∧ pWalk.my_z = pStop.my_z ∧
    (decide_action pWalk).movement.type = "walk" ∧
    (decide_action pStop).movement.type = "stop" := by
  refine ⟨?_, ?_, by decide, by decide, ?_, ?_⟩ <;>
  norm_num +decide [decide_action, resolveTarget, movementAction, lookupItem,
    tournamentResolve, tournament, tstep, sortedAvailable, availableItems,
    availablePeers, reservedSet, distSq, isclose, near_item, pWalk, pStop,
    List.insertionSort, List.orderedInsert, List.filter, List.foldl,
    abs_eq_max_neg, sup_eq_max, max_def]

/-- C4 (witness): applying the amended movement characterization at
`pStop` (non-carrying, nonzero target, an item within pickup range)
yields movement `stop`. -/
theorem movement_stop_characterization_witness :
    (decide_action pStop).movement.type = "stop" := by
  have htid : (decide_action pStop).action.target_id = "1" := by
    norm_num +decide [decide_action, resolveTarget, lookupItem, pStop]
  exact (movement_stop_characterization pStop).1.mpr
    (Or.inl ⟨rfl, by rw [htid]; decide,
      by norm_num [near_item, distSq, pStop]⟩)

/-- C5 (counterexample): the carrying agent of `pCarryNoZone` has no
visible delivery zone; `decide_action` does not retain any previous
destination (its currently targeted item sits at `(9,9)`) but resets
the destination to the spawn position `(0,0)`. -/
theorem carrying_no_zone_returns_spawn :
    resolveTarget pCarryNoZone = ("0", 0, 0) ∧
    lookupItem pCarryNoZone.items pCarryNoZone.current_target_id =
      some ⟨"7", 9, 9⟩ ∧
    ((0 : ℚ), (0 : ℚ)) ≠ ((9 : ℚ), (9 : ℚ)) := by
  refine ⟨resolveTarget_carrying_nozones rfl rfl, ?_, by decide⟩
  simp +decide [lookupItem, pCarryNoZone]

/-- C5 (witness): the amended fallback theorem applied at
`pCarryNoZone`. -/
theorem carrying_no_zone_spawn_fallback_witness :
    resolveTarget pCarryNoZone =
      ("0", pCarryNoZone.spawn_x, pCarryNoZone.spawn_z) ∧
    (decide_action pCarryNoZone).action.target_id = "0" :=
  carrying_no_zone_spawn_fallback pCarryNoZone rfl rfl

/-- C6 (witness): the empty-task-list theorem applied at `pNoItems`. -/
theorem no_tasks_spawn_fallback_witness :
    (decide_action pNoItems).action.target_id = "0" ∧
    resolveTarget pNoItems = ("0", pNoItems.spawn_x, pNoItems.spawn_z) :=
  no_tasks_spawn_fallback pNoItems rfl rfl

/-- C8 (counterexample): `get_id_int` maps `"Robot_5"` to `5` and the
malformed `"Apple"` to the sentinel `999999`, so under the claimed
numeric ordering `Robot_5` would win the equidistant tie in `sIdOrder`;
but the tournament compares the raw strings (`"Apple" < "Robot_5"`) and
`Robot_5` loses, ending with no target. -/
theorem id_sentinel_not_used_in_tournament :
    get_id_int aIdOrder.id = 5 ∧
    get_id_int bIdOrder.id = 999999 ∧
    (5 : ℤ) < 999999 ∧
    (decide_action (perceptionOf sIdOrder aIdOrder)).action.target_id =
      "0" := by
  refine ⟨by simp +decide [get_id_int, aIdOrder],
    by simp +decide [get_id_int, bIdOrder], by decide, ?_⟩
  norm_num +decide [decide_action, resolveTarget, tournamentResolve,
    tournament, tstep, sortedAvailable, availableItems, availablePeers,
    reservedSet, perceptionOf, distSq, isclose, near_item,
    List.insertionSort, List.orderedInsert, String.lt_iff_toList_lt,
    aIdOrder, bIdOrder, sIdOrder, List.filter, List.foldl,
    abs_eq_max_neg, sup_eq_max, max_def]

/-- C8 (witness): instantiating the string-order theorem at the
well-formed ids `Robot_9` and `Robot_10`: the string order
(`"Robot_10" < "Robot_9"`) decides the tie, not the numeric order. -/
theorem tournament_uses_string_order_witness :
    (decide_action (perceptionOf (idOrderSnap "Robot_9" "Robot_10")
        (idOrderAgentA "Robot_9"))).action.target_id = "0" :=
  (tournament_uses_string_order "Robot_9" "Robot_10").trans
    (by simp +decide [String.lt_iff_toList_lt])

/-- C9 (witness): a batch with one well-formed and one failing payload:
output ids match input ids and the failing agent gets the safe
decision. -/
theorem batch_isolation_witness :
    (decide_all [("a", some pNoItems), ("b", none)]).map Prod.fst =
      ["a", "b"] ∧
    decideOne ("b", (none : Option Perception)) = ("b", safeDecision) :=
  ⟨(batch_isolation [("a", some pNoItems), ("b", none)]).1.trans rfl,
    (batch_isolation [("a", some pNoItems), ("b", none)]).2.2
      ("b", none) "exception" rfl⟩

/-- C10 (witness): in `pStop` the locked target `"1"` is 5 units away
while the untargeted item `"2"` lies within 1.0, and `pick_up` is
emitted with movement `stop`. -/
theorem pick_up_characterization_witness :
    (decide_action pStop).action.type = "pick_up" ∧
    (decide_action pStop).movement.type = "stop" := by
  have htid : (decide_action pStop).action.target_id = "1" := by
    norm_num +decide [decide_action, resolveTarget, lookupItem, pStop]
  have hpick : (decide_action pStop).action.type = "pick_up" :=
    (pick_up_characterization pStop).1.mpr
      ⟨rfl, by rw [htid]; decide, by norm_num [near_item, distSq, pStop]⟩
  exact ⟨hpick, (pick_up_characterization pStop).2 hpick⟩
